import Mathlib

/-!
Shallow embedding of the data-normalization and per-student aggregation core
of `src/app.py` (student-score-visualizer): the schema detector
`validate_data` and the aggregation loop of `process_data_and_create_charts`.
Chart rendering, UI and export packaging are out of scope; a chart is
represented by the data it renders (student cell, subject labels, scores,
summary statistics).
-/

/-- A spreadsheet cell as seen by the pandas layer: missing (`NaN`/`None`),
numeric, or text.  Numbers are modelled by `ℚ` (exact arithmetic stands in
for Python floats). -/
inductive Cell where
  | null
  | num (q : ℚ)
  | txt (s : String)
deriving Repr, DecidableEq

/-- `pd.notna`: false exactly on missing cells. -/
def Cell.notna : Cell → Bool
  | .null => false
  | _ => true

/-- A Python exception escaping the aggregation loop (the source's
`float(...)` raises `ValueError`, caught only at the top-level handler). -/
inductive PyError where
  | valueError (msg : String)
deriving Repr, DecidableEq

/-- Digits-only parse of a nonempty digit run. -/
def parseDigits? (cs : List Char) : Option Nat :=
  if cs.isEmpty then none
  else if cs.all (fun c => c.isDigit) then
    some (cs.foldl (fun n c => 10 * n + (c.toNat - 48)) 0)
  else none

/-- Model of Python `float(str)` on decimal literals: optional surrounding
whitespace, optional sign, digits with an optional decimal point (Python
also accepts exponent/`inf`/`nan` forms; those are omitted here and treated
as non-coercible — no claim depends on them). -/
def pyParseFloat (s : String) : Option ℚ :=
  let cs := s.trim.toList
  let sign : ℚ × List Char :=
    match cs with
    | '-' :: rest => (-1, rest)
    | '+' :: rest => (1, rest)
    | _ => (1, cs)
  let body := sign.2
  match body.findIdx? (fun c => c = '.') with
  | none => (parseDigits? body).map (fun n => sign.1 * n)
  | some i =>
    let ip := body.take i
    let fp := body.drop (i + 1)
    if ip.isEmpty && fp.isEmpty then none
    else
      let ipv := if ip.isEmpty then some 0 else parseDigits? ip
      let fpv := if fp.isEmpty then some 0 else parseDigits? fp
      match ipv, fpv with
      | some a, some b => some (sign.1 * ((a : ℚ) + (b : ℚ) / ((10 : ℚ) ^ fp.length)))
      | _, _ => none

/-- Python `float(cell)` as applied at `app.py:111`.  Numeric cells coerce
to themselves; text cells parse or raise `ValueError` (Python's message
wraps the offending value in quotes; the quotes are omitted here).  The
`null` case is unreachable in the source (guarded by `pd.notna`). -/
def Cell.pyFloat : Cell → Except PyError ℚ
  | .num q => .ok q
  | .txt s =>
    match pyParseFloat s with
    | some q => .ok q
    | none => .error (.valueError ("could not convert string to float: " ++ s))
  | .null => .error (.valueError "float argument was null")

/-- A parsed table: ordered column names and rows; each row lists its cells
in column order. -/
structure Table where
  cols : List String
  rows : List (List Cell)
deriving Repr, DecidableEq

/-- The detector's success payload (`app.py:81-85`): the dict
`{"format": "paired", "student_col": ..., "subject_percentage_pairs": ...}`. -/
structure ColumnMapping where
  format : String
  student_col : String
  subject_percentage_pairs : List (String × String × Bool)
deriving Repr, DecidableEq

/-- `app.py:74-75`: the percentage-column header (lowered) contains
"percentage", "percent" or "%". -/
def looksLikePercentage (col : String) : Bool :=
  ["percentage", "percent", "%"].any (fun t => decide (t.toList <:+: col.toLower.toList))

/-- `app.py:68-77`: walk the trailing columns two at a time, pairing
`cols[i]` with `cols[i+1]`; an unpaired final column is dropped.  The
argument is `df.columns[1:]`. -/
def pairsFrom : List String → List (String × String × Bool)
  | a :: b :: rest => (a, b, looksLikePercentage b) :: pairsFrom rest
  | _ => []

/-- `validate_data` (`app.py:48-88`).  `df.empty` is pandas emptiness: true
when either axis has length 0. -/
def validate_data (df : Table) : List String × Option ColumnMapping :=
  if df.rows.isEmpty || df.cols.isEmpty then
    (["The uploaded file contains no data."], none)
  else if df.cols.length < 3 then
    (["The file should have at least 3 columns: student name, subject, and percentage."],
     none)
  else
    let student_col := df.cols.headD ""
    let potential_pairs := pairsFrom df.cols.tail
    if potential_pairs ≠ [] then
      ([], some ⟨"paired", student_col, potential_pairs⟩)
    else
      (["Could not automatically determine the data structure. Please select the appropriate columns below."],
       none)

/-- `row[c]`: cell of `row` at the (first) position of column `c` in the
header list.  Faithful for mappings whose columns exist in the table (the
only mappings the source ever feeds to the loop); a missing column reads as
a null cell. -/
def getCell (cols : List String) (row : List Cell) (c : String) : Cell :=
  match cols.findIdx? (fun x => x = c) with
  | some i => row.getD i .null
  | none => .null

/-- Per-student summary dict (`app.py:124-130`). -/
structure Summary where
  average : ℚ
  total_achieved : ℚ
  total_possible : ℚ
  total_percentage : ℚ
  num_subjects : Nat
deriving Repr, DecidableEq

/-- `app.py:117-130`: the summary statistics computed for one row, in
exact rational arithmetic.  ℚ stands in for Python floats: each statistic
is literally the claimed expression, so this model is faithful for the
definitional claims, but it erases IEEE-754 rounding; the identity of
`total_percentage` and `average` is rounding-sensitive and is settled
against the binary64 model `summaryFloat` below. -/
def mkSummary (subjects : List String) (scores : List ℚ) : Summary :=
  let avg_score : ℚ := if scores.isEmpty then 0 else scores.sum / (scores.length : ℚ)
  let total_possible : ℚ := 100 * (scores.length : ℚ)
  let total_achieved : ℚ := scores.sum
  let total_percentage : ℚ :=
    if total_possible > 0 then (total_achieved / total_possible) * 100 else 0
  ⟨avg_score, total_achieved, total_possible, total_percentage, subjects.length⟩

/-- One emitted per-student record (`charts.append` at `app.py:201-206`),
with the rendered figure replaced by the data it renders. -/
structure Chart where
  student : Cell
  subjects : List String
  scores : List ℚ
  summary : Summary
deriving Repr, DecidableEq

/-- `app.py:106-111`: the inner pair loop of one row.  A pair contributes
exactly when both its cells are non-null; the subject label is the column
header and the score is the percentage cell coerced by `float`, whose
failure aborts the whole run. -/
def extractPairs (cols : List String) (row : List Cell) :
    List (String × String × Bool) → Except PyError (List String × List ℚ)
  | [] => .ok ([], [])
  | (subject_col, percentage_col, _) :: rest =>
    if (getCell cols row subject_col).notna && (getCell cols row percentage_col).notna then
      match (getCell cols row percentage_col).pyFloat with
      | .error e => .error e
      | .ok q =>
        match extractPairs cols row rest with
        | .error e => .error e
        | .ok (subs, scs) => .ok (subject_col :: subs, q :: scs)
    else
      extractPairs cols row rest

/-- Python-dict assignment `student_summaries[name] = s`: replace in place
if the key is present, else append. -/
def dictInsert (m : List (Cell × Summary)) (k : Cell) (v : Summary) :
    List (Cell × Summary) :=
  if m.any (fun p => p.1 = k) then
    m.map (fun p => if p.1 = k then (k, v) else p)
  else
    m ++ [(k, v)]

/-- The row loop of `process_data_and_create_charts` (`app.py:100-206`):
rows in order; a row whose subject list comes out empty is skipped
(`app.py:113-115`); otherwise its summary is stored and a chart appended. -/
def processRows (cols : List String) (student_col : String)
    (pairs : List (String × String × Bool)) :
    List (List Cell) → List (Cell × Summary) →
    Except PyError (List Chart × List (Cell × Summary))
  | [], summaries => .ok ([], summaries)
  | row :: rest, summaries =>
    match extractPairs cols row pairs with
    | .error e => .error e
    | .ok (subjects, scores) =>
      if subjects.isEmpty then
        processRows cols student_col pairs rest summaries
      else
        match processRows cols student_col pairs rest
            (dictInsert summaries (getCell cols row student_col)
              (mkSummary subjects scores)) with
        | .error e => .error e
        | .ok (charts, finalSums) =>
          .ok (⟨getCell cols row student_col, subjects, scores,
                mkSummary subjects scores⟩ :: charts, finalSums)

/-- `process_data_and_create_charts` (`app.py:91-208`): the paired-format
branch runs the row loop; any other format yields empty output. -/
def process_data_and_create_charts (df : Table) (fmt : ColumnMapping) :
    Except PyError (List Chart × List (Cell × Summary)) :=
  if fmt.format = "paired" then
    processRows df.cols fmt.student_col fmt.subject_percentage_pairs df.rows []
  else
    .ok ([], [])

/-- The record a single row contributes, viewed in isolation: `none` when
the row is skipped (or, irrelevantly under a successful run, errors). -/
def rowChartOpt (cols : List String) (student_col : String)
    (pairs : List (String × String × Bool)) (row : List Cell) : Option Chart :=
  match extractPairs cols row pairs with
  | .error _ => none
  | .ok (subjects, scores) =>
    if subjects.isEmpty then none
    else some ⟨getCell cols row student_col, subjects, scores, mkSummary subjects scores⟩

/-! ### Concrete tables used by witnesses and counterexamples -/

/-- Scenario-A style table with an odd trailing column (5 trailing
columns: two pairs form, the last column is dropped). -/
def tblOdd : Table :=
  ⟨["Student", "Chem", "Pct", "Bio", "Pct2", "Extra"],
   [[.txt "Alice", .num 8, .num 80, .null, .null, .num 1],
    [.txt "Bob", .num 7, .num 70, .num 9, .num 90, .num 2]]⟩

/-- One row, zero columns: pandas counts this as `df.empty`. -/
def tblNoCols : Table := ⟨[], [[]]⟩

/-- Detected mapping for `tblOdd`. -/
def fmtOdd : ColumnMapping :=
  ⟨"paired", "Student", [("Chem", "Pct", false), ("Bio", "Pct2", false)]⟩

/-- Alice's record from `tblOdd`. -/
def chartAlice : Chart := ⟨.txt "Alice", ["Chem"], [80], ⟨80, 80, 100, 80, 1⟩⟩

/-- Bob's record from `tblOdd`. -/
def chartBob : Chart := ⟨.txt "Bob", ["Chem", "Bio"], [70, 90], ⟨80, 160, 200, 80, 2⟩⟩

/-- Charts emitted for `tblOdd` (checked below by evaluation). -/
def chartsOdd : List Chart := [chartAlice, chartBob]

/-- Summaries for `tblOdd`. -/
def sumsOdd : List (Cell × Summary) :=
  [(.txt "Alice", ⟨80, 80, 100, 80, 1⟩), (.txt "Bob", ⟨80, 160, 200, 80, 2⟩)]

/-- Two rows sharing the student name "Bob" with different scores. -/
def tblDup : Table :=
  ⟨["Student", "Math", "Percentage"],
   [[.txt "Bob", .num 1, .num 40], [.txt "Bob", .num 1, .num 60]]⟩

/-- Detected mapping for `tblDup`. -/
def fmtDup : ColumnMapping := ⟨"paired", "Student", [("Math", "Percentage", true)]⟩

/-- The first "Bob" row's record in `tblDup`. -/
def chartBob40 : Chart := ⟨.txt "Bob", ["Math"], [40], ⟨40, 40, 100, 40, 1⟩⟩

/-- The second "Bob" row's record in `tblDup`. -/
def chartBob60 : Chart := ⟨.txt "Bob", ["Math"], [60], ⟨60, 60, 100, 60, 1⟩⟩

/-- Charts emitted for `tblDup`: one independent record per row. -/
def chartsDup : List Chart := [chartBob40, chartBob60]

/-- Summaries dict for `tblDup` (the second "Bob" row overwrote the key). -/
def sumsDup : List (Cell × Summary) := [(.txt "Bob", ⟨60, 60, 100, 60, 1⟩)]

/-- A row whose only pair has a null subject cell. -/
def nullRow : List Cell := [.txt "Ghost", .null, .num 50]

/-- Alice's row of `tblOdd`. -/
def aliceRow : List Cell := [.txt "Alice", .num 8, .num 80, .null, .null, .num 1]

/-- A table whose single percentage cell holds non-numeric text. -/
def tblBad : Table :=
  ⟨["Student", "Math", "Percentage"], [[.txt "Ann", .num 1, .txt "absent"]]⟩

/-- Non-coercible text in the first percentage column. -/
def tblBad1 : Table :=
  ⟨["Student", "A", "P1", "B", "P2"],
   [[.txt "X", .num 1, .txt "oops", .num 2, .num 50]]⟩

/-- The same non-coercible text, but in the second percentage column. -/
def tblBad2 : Table :=
  ⟨["Student", "A", "P1", "B", "P2"],
   [[.txt "X", .num 1, .num 50, .num 2, .txt "oops"]]⟩

/-- Mapping with two pairs, for `tblBad1`/`tblBad2`. -/
def fmtTwo : ColumnMapping :=
  ⟨"paired", "Student", [("A", "P1", false), ("B", "P2", false)]⟩

/-! ### Binary64 model of the summary arithmetic

The statistics at `app.py:117-121` are computed with Python floats (IEEE-754
binary64).  `fl64` rounds an exact rational to the nearest binary64 value
(round-to-nearest, ties-to-even) for nonzero finite values in the normal
range; subnormal underflow and overflow are not modelled, and every value
arising below lies well inside the normal range. -/

/-- Fuel-driven ⌊log₂⌋ on `Nat` (structural, so the kernel can reduce it). -/
def log2fuel : Nat → Nat → Nat
  | 0, _ => 0
  | fuel + 1, n => if n < 2 then 0 else log2fuel fuel (n / 2) + 1

/-- ⌊log₂ n⌋ for positive `n`. -/
def natLog2 (n : Nat) : Nat := log2fuel n n

/-- ⌊log₂ q⌋ for a positive rational: with `a = ⌊log₂ num⌋` and
`b = ⌊log₂ den⌋` the answer is `a - b` or `a - b - 1`, decided by comparing
`2 ^ (a - b)` with `q`. -/
def ratLog2 (q : ℚ) : ℤ :=
  let n := q.num.toNat
  let d := q.den
  let a := natLog2 n
  let b := natLog2 d
  if d * 2 ^ a ≤ n * 2 ^ b then (a : ℤ) - b else (a : ℤ) - b - 1

/-- Round a nonnegative rational to the nearest integer, ties to even. -/
def roundHalfEven (q : ℚ) : ℤ :=
  let n := q.floor
  let r := q - (n : ℚ)
  if r < 1 / 2 then n
  else if 1 / 2 < r then n + 1
  else if n % 2 = 0 then n else n + 1

/-- Round an exact rational to the nearest IEEE-754 binary64 value:
a 53-bit significand `m` scaled by `2 ^ (e - 52)` where `2 ^ e ≤ |q| < 2 ^ (e + 1)`. -/
def fl64 (q : ℚ) : ℚ :=
  if q = 0 then 0
  else
    let x := |q|
    let e := ratLog2 x
    let m := roundHalfEven (x * 2 ^ (52 - e))
    let v := (m : ℚ) * 2 ^ (e - 52)
    if 0 < q then v else -v

/-- `app.py:117-121` under binary64 arithmetic: every float addition,
division and multiplication rounds through `fl64`.  `sum(scores)`
left-folds float addition from `0`; `100 * len(scores)` is exact integer
arithmetic; `(total_achieved / total_possible) * 100` rounds after the
division and again after the multiplication. -/
def summaryFloat (subjects : List String) (scores : List ℚ) : Summary :=
  let total_achieved := scores.foldl (fun a x => fl64 (a + x)) 0
  let avg_score := if scores.isEmpty then 0
    else fl64 (total_achieved / (scores.length : ℚ))
  let total_possible : ℚ := 100 * (scores.length : ℚ)
  let total_percentage :=
    if total_possible > 0 then fl64 (fl64 (total_achieved / total_possible) * 100) else 0
  ⟨avg_score, total_achieved, total_possible, total_percentage, subjects.length⟩

/-! ### Detector lemmas -/

theorem pairsFrom_length : ∀ l : List String, (pairsFrom l).length = l.length / 2
  | [] => by simp [pairsFrom]
  | [a] => by simp [pairsFrom]
  | a :: b :: rest => by
    simp [pairsFrom, pairsFrom_length rest]
    omega

theorem pairsFrom_getD :
    ∀ (l : List String) (k : Nat), k < (pairsFrom l).length →
      (pairsFrom l).getD k ("", "", false) =
        (l.getD (2 * k) "", l.getD (2 * k + 1) "",
         looksLikePercentage (l.getD (2 * k + 1) ""))
  | [], k, hk => by simp [pairsFrom] at hk
  | [a], k, hk => by simp [pairsFrom] at hk
  | a :: b :: rest, 0, hk => by simp [pairsFrom]
  | a :: b :: rest, k + 1, hk => by
    have hk' : k < (pairsFrom rest).length := by simpa [pairsFrom] using hk
    have e1 : (a :: b :: rest).getD (2 * (k + 1)) "" = rest.getD (2 * k) "" := by
      rw [show 2 * (k + 1) = 2 * k + 1 + 1 from by ring]
      rw [List.getD_cons_succ, List.getD_cons_succ]
    have e2 : (a :: b :: rest).getD (2 * (k + 1) + 1) "" = rest.getD (2 * k + 1) "" := by
      rw [show 2 * (k + 1) + 1 = 2 * k + 1 + 1 + 1 from by ring]
      rw [List.getD_cons_succ, List.getD_cons_succ]
    rw [e1, e2]
    simp only [pairsFrom, List.getD_cons_succ]
    exact pairsFrom_getD rest k hk'

theorem validate_data_success (df : Table) (h1 : df.rows ≠ [])
    (h2 : 3 ≤ df.cols.length) :
    validate_data df =
      ([], some ⟨"paired", df.cols.headD "", pairsFrom df.cols.tail⟩) := by
  have hc : df.cols ≠ [] := by
    intro h; rw [h] at h2; simp at h2
  have hlen : (pairsFrom df.cols.tail).length = df.cols.tail.length / 2 :=
    pairsFrom_length _
  have htail : 2 ≤ df.cols.tail.length := by
    have := df.cols.length_tail
    omega
  have hne : pairsFrom df.cols.tail ≠ [] := by
    intro h
    rw [h] at hlen
    simp at hlen
    omega
  simp [validate_data, h1, hc, hne]
  omega

theorem pairsFrom_ne_nil (l : List String) (h : 2 ≤ l.length) : pairsFrom l ≠ [] := by
  have hlen := pairsFrom_length l
  intro hn
  rw [hn] at hlen
  simp at hlen
  omega

/-- C2: for every table passing the column-count check, column 0 is the
student column and the trailing columns are paired two at a time in column
order (`cols.tail[2k]` as subject, `cols.tail[2k+1]` as percentage), the
number of pairs being `⌊trailing/2⌋`, so an odd final column is dropped. -/
theorem detector_column_pairing (df : Table) (h1 : df.rows ≠ [])
    (h2 : 3 ≤ df.cols.length) :
    ∃ m, validate_data df = ([], some m) ∧
      m.student_col = df.cols.headD "" ∧
      m.subject_percentage_pairs.length = df.cols.tail.length / 2 ∧
      ∀ k, k < m.subject_percentage_pairs.length →
        m.subject_percentage_pairs.getD k ("", "", false) =
          (df.cols.tail.getD (2 * k) "", df.cols.tail.getD (2 * k + 1) "",
           looksLikePercentage (df.cols.tail.getD (2 * k + 1) "")) :=
  ⟨_, validate_data_success df h1 h2, rfl, pairsFrom_length _,
   fun k hk => pairsFrom_getD _ k hk⟩

/-- Witness for C2 on `tblOdd`: 5 trailing columns yield 2 pairs. -/
theorem detector_column_pairing_witness :
    tblOdd.rows ≠ [] ∧ 3 ≤ tblOdd.cols.length ∧
    (∃ m, validate_data tblOdd = ([], some m) ∧
      m.student_col = tblOdd.cols.headD "" ∧
      m.subject_percentage_pairs.length = tblOdd.cols.tail.length / 2 ∧
      ∀ k, k < m.subject_percentage_pairs.length →
        m.subject_percentage_pairs.getD k ("", "", false) =
          (tblOdd.cols.tail.getD (2 * k) "", tblOdd.cols.tail.getD (2 * k + 1) "",
           looksLikePercentage (tblOdd.cols.tail.getD (2 * k + 1) ""))) :=
  ⟨by decide, by decide, detector_column_pairing tblOdd (by decide) (by decide)⟩

/-- C6: a table with at least one row and at least 3 columns always makes
the detector succeed with the paired format and a non-empty pair list; the
manual-selection fallback branch is unreachable under this precondition. -/
theorem detector_success_on_min_shape (df : Table) (h1 : df.rows ≠ [])
    (h2 : 3 ≤ df.cols.length) :
    ∃ m, validate_data df = ([], some m) ∧ m.format = "paired" ∧
      m.subject_percentage_pairs ≠ [] := by
  refine ⟨_, validate_data_success df h1 h2, rfl, ?_⟩
  refine pairsFrom_ne_nil _ ?_
  have := df.cols.length_tail
  omega

/-- Witness for C6. -/
theorem detector_success_on_min_shape_witness :
    tblOdd.rows ≠ [] ∧ 3 ≤ tblOdd.cols.length ∧
    (∃ m, validate_data tblOdd = ([], some m) ∧ m.format = "paired" ∧
      m.subject_percentage_pairs ≠ []) :=
  ⟨by decide, by decide, detector_success_on_min_shape tblOdd (by decide) (by decide)⟩

/-- C8 (amended): the detector reports the no-data error exactly when the
table has zero rows or zero columns — `df.empty` in pandas is true when
either axis has length 0, not only when there are no rows. -/
theorem empty_table_error_iff (df : Table) :
    validate_data df = (["The uploaded file contains no data."], none) ↔
      (df.rows = [] ∨ df.cols = []) := by
  constructor
  · intro h
    by_contra hnot
    push_neg at hnot
    obtain ⟨hr, hc⟩ := hnot
    rw [validate_data] at h
    have hcond : (df.rows.isEmpty || df.cols.isEmpty) = false := by
      simp [hr, hc]
    rw [hcond] at h
    simp only [Bool.false_eq_true, if_false, ne_eq] at h
    split_ifs at h <;> simp at h
  · rintro (h | h) <;> simp [validate_data, h]

/-- Counterexample for C8 as stated: a table with one row and zero columns
is reported as containing no data, though its row count is not zero. -/
theorem empty_table_error_zero_columns :
    tblNoCols.rows.length = 1 ∧
    validate_data tblNoCols = (["The uploaded file contains no data."], none) :=
  ⟨rfl, rfl⟩

/-! ### Aggregator lemmas -/

theorem extractPairs_ok_spec (cols : List String) (row : List Cell) :
    ∀ (pairs : List (String × String × Bool)) (subs : List String) (scs : List ℚ),
      extractPairs cols row pairs = .ok (subs, scs) →
      subs = (pairs.filter (fun q =>
                (getCell cols row q.1).notna && (getCell cols row q.2.1).notna)).map
               (fun q => q.1) ∧
      List.Forall₂ (fun q v => (getCell cols row q.2.1).pyFloat = Except.ok v)
        (pairs.filter (fun q =>
           (getCell cols row q.1).notna && (getCell cols row q.2.1).notna)) scs
  | [], subs, scs, h => by
    simp [extractPairs] at h
    simp [h.1, h.2]
  | (sc, pc, b) :: rest, subs, scs, h => by
    by_cases hg : ((getCell cols row sc).notna && (getCell cols row pc).notna) = true
    · rw [extractPairs, if_pos hg] at h
      cases hf : (getCell cols row pc).pyFloat with
      | error e => rw [hf] at h; simp at h
      | ok q =>
        rw [hf] at h
        cases hr : extractPairs cols row rest with
        | error e => rw [hr] at h; simp at h
        | ok p =>
          obtain ⟨subs', scs'⟩ := p
          rw [hr] at h
          simp only [Except.ok.injEq, Prod.mk.injEq] at h
          obtain ⟨h1, h2⟩ := h
          subst h1
          subst h2
          obtain ⟨ih1, ih2⟩ := extractPairs_ok_spec cols row rest subs' scs' hr
          refine ⟨?_, ?_⟩
          · simp only [List.filter_cons, hg, if_true, List.map_cons]
            exact congrArg _ ih1
          · simp only [List.filter_cons, hg, if_true]
            exact List.Forall₂.cons hf ih2
    · rw [extractPairs, if_neg hg] at h
      obtain ⟨ih1, ih2⟩ := extractPairs_ok_spec cols row rest subs scs h
      rw [Bool.not_eq_true] at hg
      refine ⟨?_, ?_⟩
      · simpa only [List.filter_cons, hg, Bool.false_eq_true, if_false] using ih1
      · simpa only [List.filter_cons, hg, Bool.false_eq_true, if_false] using ih2

theorem extractPairs_length {cols : List String} {row : List Cell}
    {pairs : List (String × String × Bool)} {subs : List String} {scs : List ℚ}
    (h : extractPairs cols row pairs = .ok (subs, scs)) :
    subs.length = scs.length := by
  obtain ⟨h1, h2⟩ := extractPairs_ok_spec cols row pairs subs scs h
  rw [h1, List.length_map]
  exact h2.length_eq

theorem extractPairs_all_skip (cols : List String) (row : List Cell)
    (pairs : List (String × String × Bool))
    (h : ∀ q ∈ pairs, getCell cols row q.1 = Cell.null ∨ getCell cols row q.2.1 = Cell.null) :
    extractPairs cols row pairs = .ok ([], []) := by
  induction pairs with
  | nil => rfl
  | cons q rest ih =>
    obtain ⟨sc, pc, b⟩ := q
    have hq := h _ (List.mem_cons_self _ _)
    have hg : ((getCell cols row sc).notna && (getCell cols row pc).notna) = false := by
      rcases hq with h1 | h1 <;> simp_all [Cell.notna]
    rw [extractPairs, hg]
    simp only [Bool.false_eq_true, if_false]
    exact ih (fun q hq' => h q (List.mem_cons_of_mem _ hq'))

theorem processRows_ok_charts (cols : List String) (student_col : String)
    (pairs : List (String × String × Bool)) :
    ∀ (rows : List (List Cell)) (sums : List (Cell × Summary))
      (charts : List Chart) (fsums : List (Cell × Summary)),
      processRows cols student_col pairs rows sums = .ok (charts, fsums) →
      charts = rows.filterMap (rowChartOpt cols student_col pairs)
  | [], sums, charts, fsums, h => by
    simp only [processRows, Except.ok.injEq, Prod.mk.injEq] at h
    rw [← h.1]
    simp
  | row :: rest, sums, charts, fsums, h => by
    rw [processRows] at h
    cases he : extractPairs cols row pairs with
    | error e => rw [he] at h; simp at h
    | ok p =>
      obtain ⟨subjects, scores⟩ := p
      rw [he] at h
      simp only at h
      by_cases hs : subjects.isEmpty
      · rw [if_pos hs] at h
        have ih := processRows_ok_charts cols student_col pairs rest sums charts fsums h
        rw [ih, List.filterMap_cons]
        have : rowChartOpt cols student_col pairs row = none := by
          simp [rowChartOpt, he, hs]
        rw [this]
      · rw [if_neg hs] at h
        cases hr : processRows cols student_col pairs rest
            (dictInsert sums (getCell cols row student_col) (mkSummary subjects scores)) with
        | error e => rw [hr] at h; simp at h
        | ok p' =>
          obtain ⟨charts', fs'⟩ := p'
          rw [hr] at h
          simp only [Except.ok.injEq, Prod.mk.injEq] at h
          have ih := processRows_ok_charts cols student_col pairs rest _ charts' fs' hr
          rw [← h.1, List.filterMap_cons]
          have : rowChartOpt cols student_col pairs row =
              some ⟨getCell cols row student_col, subjects, scores, mkSummary subjects scores⟩ := by
            simp [rowChartOpt, he, hs]
          rw [this, ih]

theorem rowChartOpt_some_elim {cols : List String} {student_col : String}
    {pairs : List (String × String × Bool)} {row : List Cell} {c : Chart}
    (h : rowChartOpt cols student_col pairs row = some c) :
    ∃ subjects scores, extractPairs cols row pairs = .ok (subjects, scores) ∧
      subjects ≠ [] ∧
      c = ⟨getCell cols row student_col, subjects, scores, mkSummary subjects scores⟩ := by
  rw [rowChartOpt] at h
  cases he : extractPairs cols row pairs with
  | error e => rw [he] at h; simp at h
  | ok p =>
    obtain ⟨subjects, scores⟩ := p
    rw [he] at h
    simp only at h
    by_cases hs : subjects.isEmpty
    · rw [if_pos hs] at h; simp at h
    · rw [if_neg hs] at h
      simp only [Option.some.injEq] at h
      exact ⟨subjects, scores, rfl, by simpa using hs, h.symm⟩

theorem chart_mem_of_ok {df : Table} {fmt : ColumnMapping}
    {charts : List Chart} {sums : List (Cell × Summary)}
    (h : process_data_and_create_charts df fmt = .ok (charts, sums))
    {c : Chart} (hc : c ∈ charts) :
    ∃ row ∈ df.rows,
      rowChartOpt df.cols fmt.student_col fmt.subject_percentage_pairs row = some c := by
  rw [process_data_and_create_charts] at h
  by_cases hf : fmt.format = "paired"
  · rw [if_pos hf] at h
    have := processRows_ok_charts df.cols fmt.student_col fmt.subject_percentage_pairs
      df.rows [] charts sums h
    rw [this] at hc
    exact List.mem_filterMap.mp hc
  · rw [if_neg hf] at h
    simp only [Except.ok.injEq, Prod.mk.injEq] at h
    rw [← h.1] at hc
    simp at hc

/-! ### Error-path lemmas -/

theorem extractPairs_error_shape (cols : List String) (row : List Cell) :
    ∀ (pairs : List (String × String × Bool)) (e : PyError),
      extractPairs cols row pairs = .error e →
      ∃ s, e = .valueError ("could not convert string to float: " ++ s) ∧
        ∃ q ∈ pairs, (getCell cols row q.1).notna = true ∧
          getCell cols row q.2.1 = Cell.txt s ∧ pyParseFloat s = none
  | [], e, h => by simp [extractPairs] at h
  | (sc, pc, b) :: rest, e, h => by
    by_cases hg : ((getCell cols row sc).notna && (getCell cols row pc).notna) = true
    · rw [extractPairs, if_pos hg] at h
      cases hf : (getCell cols row pc).pyFloat with
      | error e' =>
        rw [hf] at h
        simp only [Except.error.injEq] at h
        subst h
        cases hc : getCell cols row pc with
        | null => rw [hc] at hg; simp [Cell.notna] at hg
        | num q => rw [hc] at hf; simp [Cell.pyFloat] at hf
        | txt s =>
          rw [hc] at hf
          rw [Cell.pyFloat] at hf
          cases hp : pyParseFloat s with
          | some q => rw [hp] at hf; simp at hf
          | none =>
            rw [hp] at hf
            simp only [Except.error.injEq, PyError.valueError.injEq] at hf
            exact ⟨s, by rw [hf], ⟨sc, pc, b⟩, List.mem_cons_self _ _,
              (Bool.and_eq_true _ _).mp hg |>.1, hc, hp⟩
      | ok q =>
        rw [hf] at h
        simp only at h
        cases hr : extractPairs cols row rest with
        | error e' =>
          rw [hr] at h
          simp only [Except.error.injEq] at h
          subst h
          obtain ⟨s, hs, q', hq', hprop⟩ := extractPairs_error_shape cols row rest e' hr
          exact ⟨s, hs, q', List.mem_cons_of_mem _ hq', hprop⟩
        | ok p => rw [hr] at h; obtain ⟨u, v⟩ := p; simp at h
    · rw [extractPairs, if_neg hg] at h
      obtain ⟨s, hs, q', hq', hprop⟩ := extractPairs_error_shape cols row rest e h
      exact ⟨s, hs, q', List.mem_cons_of_mem _ hq', hprop⟩

theorem extractPairs_error_of_bad (cols : List String) (row : List Cell) :
    ∀ (pairs : List (String × String × Bool)),
      (∃ q ∈ pairs, (getCell cols row q.1).notna = true ∧
        (getCell cols row q.2.1).notna = true ∧
        ∃ e0, (getCell cols row q.2.1).pyFloat = .error e0) →
      ∃ e, extractPairs cols row pairs = .error e
  | [], h => by simp at h
  | (sc, pc, b) :: rest, h => by
    by_cases hg : ((getCell cols row sc).notna && (getCell cols row pc).notna) = true
    · cases hf : (getCell cols row pc).pyFloat with
      | error e' => exact ⟨e', by rw [extractPairs, if_pos hg, hf]⟩
      | ok q =>
        have hrest : ∃ q' ∈ rest, (getCell cols row q'.1).notna = true ∧
            (getCell cols row q'.2.1).notna = true ∧
            ∃ e0, (getCell cols row q'.2.1).pyFloat = .error e0 := by
          obtain ⟨q', hq', hna, hnb, e0, he0⟩ := h
          rcases List.mem_cons.mp hq' with rfl | hmem
          · simp only at he0
            rw [hf] at he0
            simp at he0
          · exact ⟨q', hmem, hna, hnb, e0, he0⟩
        obtain ⟨e, he⟩ := extractPairs_error_of_bad cols row rest hrest
        exact ⟨e, by rw [extractPairs, if_pos hg, hf, he]⟩
    · have hrest : ∃ q' ∈ rest, (getCell cols row q'.1).notna = true ∧
          (getCell cols row q'.2.1).notna = true ∧
          ∃ e0, (getCell cols row q'.2.1).pyFloat = .error e0 := by
        obtain ⟨q', hq', hna, hnb, e0, he0⟩ := h
        rcases List.mem_cons.mp hq' with rfl | hmem
        · simp only at hna hnb
          exact absurd ((Bool.and_eq_true _ _).mpr ⟨hna, hnb⟩) hg
        · exact ⟨q', hmem, hna, hnb, e0, he0⟩
      obtain ⟨e, he⟩ := extractPairs_error_of_bad cols row rest hrest
      exact ⟨e, by rw [extractPairs, if_neg hg]; exact he⟩

theorem processRows_error_shape (cols : List String) (student_col : String)
    (pairs : List (String × String × Bool)) :
    ∀ (rows : List (List Cell)) (sums : List (Cell × Summary)) (e : PyError),
      processRows cols student_col pairs rows sums = .error e →
      ∃ row ∈ rows, extractPairs cols row pairs = .error e
  | [], sums, e, h => by simp [processRows] at h
  | row :: rest, sums, e, h => by
    rw [processRows] at h
    cases he : extractPairs cols row pairs with
    | error e' =>
      rw [he] at h
      simp only [Except.error.injEq] at h
      subst h
      exact ⟨row, List.mem_cons_self _ _, he⟩
    | ok p =>
      obtain ⟨subjects, scores⟩ := p
      rw [he] at h
      simp only at h
      by_cases hs : subjects.isEmpty
      · rw [if_pos hs] at h
        obtain ⟨r, hr, hx⟩ := processRows_error_shape cols student_col pairs rest sums e h
        exact ⟨r, List.mem_cons_of_mem _ hr, hx⟩
      · rw [if_neg hs] at h
        cases hp : processRows cols student_col pairs rest
            (dictInsert sums (getCell cols row student_col) (mkSummary subjects scores)) with
        | error e' =>
          rw [hp] at h
          simp only [Except.error.injEq] at h
          subst h
          obtain ⟨r, hr, hx⟩ := processRows_error_shape cols student_col pairs rest _ _ hp
          exact ⟨r, List.mem_cons_of_mem _ hr, hx⟩
        | ok p' => obtain ⟨u, v⟩ := p'; rw [hp] at h; simp at h

theorem processRows_error_of (cols : List String) (student_col : String)
    (pairs : List (String × String × Bool)) :
    ∀ (rows : List (List Cell)) (sums : List (Cell × Summary)),
      (∃ row ∈ rows, ∃ e, extractPairs cols row pairs = .error e) →
      ∃ e, processRows cols student_col pairs rows sums = .error e
  | [], sums, h => by simp at h
  | row :: rest, sums, h => by
    cases he : extractPairs cols row pairs with
    | error e' => exact ⟨e', by rw [processRows, he]⟩
    | ok p =>
      obtain ⟨subjects, scores⟩ := p
      have hrest : ∃ r ∈ rest, ∃ e, extractPairs cols r pairs = .error e := by
        obtain ⟨r, hr, e, hx⟩ := h
        rcases List.mem_cons.mp hr with rfl | hmem
        · rw [he] at hx; simp at hx
        · exact ⟨r, hmem, e, hx⟩
      by_cases hs : subjects.isEmpty
      · obtain ⟨e, hp⟩ := processRows_error_of cols student_col pairs rest sums hrest
        exact ⟨e, by rw [processRows, he]; simp only; rw [if_pos hs]; exact hp⟩
      · obtain ⟨e, hp⟩ := processRows_error_of cols student_col pairs rest
          (dictInsert sums (getCell cols row student_col) (mkSummary subjects scores)) hrest
        exact ⟨e, by rw [processRows, he]; simp only; rw [if_neg hs, hp]⟩

/-! ### Claims about the aggregator -/

theorem chart_summary_eq {df : Table} {fmt : ColumnMapping}
    {charts : List Chart} {sums : List (Cell × Summary)}
    (h : process_data_and_create_charts df fmt = .ok (charts, sums))
    {c : Chart} (hc : c ∈ charts) :
    c.scores ≠ [] ∧ c.summary = mkSummary c.subjects c.scores ∧
    c.subjects.length = c.scores.length := by
  obtain ⟨row, hrow, hopt⟩ := chart_mem_of_ok h hc
  obtain ⟨subjects, scores, he, hne, rfl⟩ := rowChartOpt_some_elim hopt
  have hlen := extractPairs_length he
  dsimp only
  refine ⟨?_, rfl, hlen⟩
  intro h0
  subst h0
  simp at hlen
  exact hne hlen

/-- C1: every emitted record's summary satisfies
`average = sum(scores)/len(scores)`, `total_achieved = sum(scores)`,
`total_possible = 100 * len(scores)` and
`total_percentage = total_achieved/total_possible * 100` (with the
zero-guard of the source); emitted records always have non-empty scores. -/
theorem aggregate_summary_stats (df : Table) (fmt : ColumnMapping)
    (charts : List Chart) (sums : List (Cell × Summary))
    (h : process_data_and_create_charts df fmt = .ok (charts, sums)) :
    ∀ c ∈ charts, c.scores ≠ [] ∧
      c.summary.average = c.scores.sum / (c.scores.length : ℚ) ∧
      c.summary.total_achieved = c.scores.sum ∧
      c.summary.total_possible = 100 * (c.scores.length : ℚ) ∧
      c.summary.total_percentage =
        (if 0 < c.summary.total_possible then
          c.summary.total_achieved / c.summary.total_possible * 100 else 0) := by
  intro c hc
  obtain ⟨hne, hsum, _⟩ := chart_summary_eq h hc
  have hE : c.scores.isEmpty = false := by
    cases hs : c.scores with
    | nil => exact absurd hs hne
    | cons a t => rfl
  rw [hsum]
  refine ⟨hne, ?_, ?_, ?_, ?_⟩ <;> simp [mkSummary, hE]

/-- Witness for C1 on `tblOdd` at Alice's record. -/
theorem aggregate_summary_stats_witness :
    process_data_and_create_charts tblOdd fmtOdd = .ok (chartsOdd, sumsOdd) ∧
    chartAlice ∈ chartsOdd ∧
    (chartAlice.scores ≠ [] ∧
      chartAlice.summary.average = chartAlice.scores.sum / (chartAlice.scores.length : ℚ) ∧
      chartAlice.summary.total_achieved = chartAlice.scores.sum ∧
      chartAlice.summary.total_possible = 100 * (chartAlice.scores.length : ℚ) ∧
      chartAlice.summary.total_percentage =
        (if 0 < chartAlice.summary.total_possible then
          chartAlice.summary.total_achieved / chartAlice.summary.total_possible * 100
        else 0)) :=
  ⟨by with_unfolding_all rfl, List.mem_cons_self _ _,
   aggregate_summary_stats tblOdd fmtOdd chartsOdd sumsOdd
     (by with_unfolding_all rfl) chartAlice (List.mem_cons_self _ _)⟩

/-- C10 (amended): in exact rational arithmetic the overall-percentage
formula collapses, `sum/(100·n) · 100 = sum/n`, so in the exact model every
emitted record has `total_percentage = average`.  Under the program's
binary64 float arithmetic the two agree only up to rounding and can differ
in the final ulp (see the counterexample below). -/
theorem total_percentage_eq_average (df : Table) (fmt : ColumnMapping)
    (charts : List Chart) (sums : List (Cell × Summary))
    (h : process_data_and_create_charts df fmt = .ok (charts, sums)) :
    ∀ c ∈ charts, c.summary.total_percentage = c.summary.average := by
  intro c hc
  obtain ⟨hne, hsum, _⟩ := chart_summary_eq h hc
  have hE : c.scores.isEmpty = false := by
    cases hs : c.scores with
    | nil => exact absurd hs hne
    | cons a t => rfl
  have hn0 : (c.scores.length : ℚ) ≠ 0 := by
    have : c.scores.length ≠ 0 := by
      simpa [List.length_eq_zero] using hne
    exact_mod_cast this
  have hpos : (0 : ℚ) < 100 * (c.scores.length : ℚ) := by
    have h1 : 0 < c.scores.length := List.length_pos.mpr hne
    have h2 : (0 : ℚ) < (c.scores.length : ℚ) := by exact_mod_cast h1
    nlinarith
  rw [hsum]
  simp only [mkSummary, hE, Bool.false_eq_true, if_false, if_pos hpos]
  field_simp
  ring

/-- Witness for C10 on `tblOdd` at Bob's record. -/
theorem total_percentage_eq_average_witness :
    process_data_and_create_charts tblOdd fmtOdd = .ok (chartsOdd, sumsOdd) ∧
    chartBob ∈ chartsOdd ∧
    chartBob.summary.total_percentage = chartBob.summary.average :=
  ⟨by with_unfolding_all rfl, List.mem_cons_of_mem _ (List.mem_cons_self _ _),
   total_percentage_eq_average tblOdd fmtOdd chartsOdd sumsOdd
     (by with_unfolding_all rfl) chartBob
     (List.mem_cons_of_mem _ (List.mem_cons_self _ _))⟩

/-- C4: a row in which every pair has a null cell is skipped entirely: the
loop's result on `row :: rest` equals its result on `rest` alone, so the
row contributes no record and appears in no downstream summary or chart
set. -/
theorem all_null_row_skipped (cols : List String) (student_col : String)
    (pairs : List (String × String × Bool)) (row : List Cell)
    (rest : List (List Cell)) (sums : List (Cell × Summary))
    (h : ∀ q ∈ pairs, getCell cols row q.1 = Cell.null ∨ getCell cols row q.2.1 = Cell.null) :
    processRows cols student_col pairs (row :: rest) sums =
      processRows cols student_col pairs rest sums := by
  rw [processRows, extractPairs_all_skip cols row pairs h]
  rfl

/-- Witness for C4: a row whose only pair has a null subject cell. -/
theorem all_null_row_skipped_witness :
    (∀ q ∈ fmtDup.subject_percentage_pairs,
      getCell tblDup.cols nullRow q.1 = Cell.null ∨
      getCell tblDup.cols nullRow q.2.1 = Cell.null) ∧
    processRows tblDup.cols fmtDup.student_col fmtDup.subject_percentage_pairs
        (nullRow :: tblDup.rows) [] =
      processRows tblDup.cols fmtDup.student_col fmtDup.subject_percentage_pairs
        tblDup.rows [] :=
  ⟨by decide,
   all_null_row_skipped tblDup.cols fmtDup.student_col fmtDup.subject_percentage_pairs
     nullRow tblDup.rows [] (by decide)⟩

/-- C9: on success, the emitted chart list is exactly the per-row records
of the non-skipped rows, in input row order (`filterMap` preserves it). -/
theorem records_in_row_order (df : Table) (fmt : ColumnMapping)
    (charts : List Chart) (sums : List (Cell × Summary))
    (hfmt : fmt.format = "paired")
    (h : process_data_and_create_charts df fmt = .ok (charts, sums)) :
    charts = df.rows.filterMap
      (rowChartOpt df.cols fmt.student_col fmt.subject_percentage_pairs) := by
  rw [process_data_and_create_charts, if_pos hfmt] at h
  exact processRows_ok_charts _ _ _ _ _ _ _ h

/-- Witness for C9 on `tblDup`. -/
theorem records_in_row_order_witness :
    fmtDup.format = "paired" ∧
    process_data_and_create_charts tblDup fmtDup = .ok (chartsDup, sumsDup) ∧
    chartsDup = tblDup.rows.filterMap
      (rowChartOpt tblDup.cols fmtDup.student_col fmtDup.subject_percentage_pairs) :=
  ⟨rfl, by with_unfolding_all rfl,
   records_in_row_order tblDup fmtDup chartsDup sumsDup rfl (by with_unfolding_all rfl)⟩

/-- C3: a pair contributes to a row exactly when both its cells are
non-null; the contributed subject is the subject column's header, the
contributed score is the percentage cell coerced by `float`, and every
emitted record has as many subjects as scores. -/
theorem pair_contribution_characterization :
    (∀ (cols : List String) (row : List Cell) (pairs : List (String × String × Bool))
       (subs : List String) (scs : List ℚ),
       extractPairs cols row pairs = .ok (subs, scs) →
       subs = (pairs.filter (fun q =>
                 (getCell cols row q.1).notna && (getCell cols row q.2.1).notna)).map
                (fun q => q.1) ∧
       List.Forall₂ (fun q v => (getCell cols row q.2.1).pyFloat = Except.ok v)
         (pairs.filter (fun q =>
            (getCell cols row q.1).notna && (getCell cols row q.2.1).notna)) scs) ∧
    (∀ (df : Table) (fmt : ColumnMapping) (charts : List Chart)
       (sums : List (Cell × Summary)),
       process_data_and_create_charts df fmt = .ok (charts, sums) →
       ∀ c ∈ charts, c.subjects.length = c.scores.length) :=
  ⟨fun cols row pairs subs scs h => extractPairs_ok_spec cols row pairs subs scs h,
   fun _ _ _ _ h _c hc => (chart_summary_eq h hc).2.2⟩

/-- Witness for C3 on Alice's row of `tblOdd` (her second pair has null
cells and is filtered out) and on her emitted record. -/
theorem pair_contribution_characterization_witness :
    extractPairs tblOdd.cols aliceRow fmtOdd.subject_percentage_pairs =
      .ok (["Chem"], [80]) ∧
    (["Chem"] = (fmtOdd.subject_percentage_pairs.filter (fun q =>
        (getCell tblOdd.cols aliceRow q.1).notna &&
        (getCell tblOdd.cols aliceRow q.2.1).notna)).map (fun q => q.1) ∧
     List.Forall₂ (fun q v => (getCell tblOdd.cols aliceRow q.2.1).pyFloat = Except.ok v)
       (fmtOdd.subject_percentage_pairs.filter (fun q =>
          (getCell tblOdd.cols aliceRow q.1).notna &&
          (getCell tblOdd.cols aliceRow q.2.1).notna)) [80]) ∧
    process_data_and_create_charts tblOdd fmtOdd = .ok (chartsOdd, sumsOdd) ∧
    chartAlice.subjects.length = chartAlice.scores.length :=
  ⟨by with_unfolding_all rfl,
   pair_contribution_characterization.1 tblOdd.cols aliceRow
     fmtOdd.subject_percentage_pairs ["Chem"] [80] (by with_unfolding_all rfl),
   by with_unfolding_all rfl,
   pair_contribution_characterization.2 tblOdd fmtOdd chartsOdd sumsOdd
     (by with_unfolding_all rfl) chartAlice (List.mem_cons_self _ _)⟩

theorem length_filter_filterMap {α β : Type} (l : List α) (f : α → Option β)
    (p : β → Bool) :
    ((l.filterMap f).filter p).length =
      l.countP (fun a => ((f a).filter p).isSome) := by
  induction l with
  | nil => simp
  | cons a t ih =>
    rw [List.filterMap_cons, List.countP_cons]
    cases hf : f a with
    | none => simp [Option.filter, ih]
    | some b =>
      cases hp : p b with
      | false => simp [List.filter_cons, Option.filter, hp, ih]
      | true => simp [List.filter_cons, Option.filter, hp, ih]

/-- C5: rows with duplicate student names are never merged: for every
name, the number of emitted records bearing it equals the number of
non-skipped rows bearing it, and every emitted record is the record of
one of its own source rows (statistics included). -/
theorem duplicate_names_independent_records (df : Table) (fmt : ColumnMapping)
    (charts : List Chart) (sums : List (Cell × Summary))
    (hfmt : fmt.format = "paired")
    (h : process_data_and_create_charts df fmt = .ok (charts, sums)) :
    (∀ name : Cell,
      (charts.filter (fun c => decide (c.student = name))).length =
        df.rows.countP (fun r =>
          ((rowChartOpt df.cols fmt.student_col fmt.subject_percentage_pairs r).filter
            (fun c => decide (c.student = name))).isSome)) ∧
    ∀ c ∈ charts, ∃ row ∈ df.rows,
      rowChartOpt df.cols fmt.student_col fmt.subject_percentage_pairs row = some c := by
  rw [process_data_and_create_charts, if_pos hfmt] at h
  have hc := processRows_ok_charts _ _ _ _ _ _ _ h
  constructor
  · intro name
    rw [hc]
    exact length_filter_filterMap _ _ _
  · intro c hcm
    rw [hc] at hcm
    exact List.mem_filterMap.mp hcm

/-- Witness for C5 on `tblDup`: two rows named "Bob" yield two records,
each with its own statistics. -/
theorem duplicate_names_independent_records_witness :
    fmtDup.format = "paired" ∧
    process_data_and_create_charts tblDup fmtDup = .ok (chartsDup, sumsDup) ∧
    (chartsDup.filter (fun c => decide (c.student = Cell.txt "Bob"))).length =
      tblDup.rows.countP (fun r =>
        ((rowChartOpt tblDup.cols fmtDup.student_col fmtDup.subject_percentage_pairs r).filter
          (fun c => decide (c.student = Cell.txt "Bob"))).isSome) ∧
    chartBob40 ∈ chartsDup ∧
    ∃ row ∈ tblDup.rows,
      rowChartOpt tblDup.cols fmtDup.student_col fmtDup.subject_percentage_pairs row =
        some chartBob40 :=
  ⟨rfl, by with_unfolding_all rfl,
   (duplicate_names_independent_records tblDup fmtDup chartsDup sumsDup rfl
     (by with_unfolding_all rfl)).1 (Cell.txt "Bob"),
   List.mem_cons_self _ _,
   (duplicate_names_independent_records tblDup fmtDup chartsDup sumsDup rfl
     (by with_unfolding_all rfl)).2 chartBob40 (List.mem_cons_self _ _)⟩

/-- C7 (amended): the run aborts exactly when some row has a pair whose
cells are both non-null and whose percentage cell cannot be coerced; the
single diagnostic is Python's coercion error, which names the offending
value (not the offending cell), and on abort no output is produced (the
result is the error alone, never a partial chart list). -/
theorem nonnumeric_abort_run_level (df : Table) (fmt : ColumnMapping)
    (hfmt : fmt.format = "paired") :
    ((∃ e, process_data_and_create_charts df fmt = .error e) ↔
      (∃ row ∈ df.rows, ∃ q ∈ fmt.subject_percentage_pairs,
        (getCell df.cols row q.1).notna = true ∧
        (getCell df.cols row q.2.1).notna = true ∧
        ∃ e0, (getCell df.cols row q.2.1).pyFloat = .error e0)) ∧
    (∀ e, process_data_and_create_charts df fmt = .error e →
      ∃ s, e = .valueError ("could not convert string to float: " ++ s) ∧
        ∃ row ∈ df.rows, ∃ q ∈ fmt.subject_percentage_pairs,
          (getCell df.cols row q.1).notna = true ∧
          getCell df.cols row q.2.1 = Cell.txt s ∧ pyParseFloat s = none) := by
  rw [process_data_and_create_charts, if_pos hfmt]
  constructor
  · constructor
    · rintro ⟨e, he⟩
      obtain ⟨row, hrow, hx⟩ := processRows_error_shape _ _ _ _ _ _ he
      obtain ⟨s, hs, q, hq, hna, hcell, hp⟩ := extractPairs_error_shape _ _ _ _ hx
      refine ⟨row, hrow, q, hq, hna, ?_, ?_⟩
      · rw [hcell]; rfl
      · exact ⟨_, by rw [hcell, Cell.pyFloat, hp]⟩
    · rintro ⟨row, hrow, q, hq, hna, hnb, e0, he0⟩
      have hx := extractPairs_error_of_bad df.cols row fmt.subject_percentage_pairs
        ⟨q, hq, hna, hnb, e0, he0⟩
      exact processRows_error_of _ _ _ _ _ ⟨row, hrow, hx⟩
  · intro e he
    obtain ⟨row, hrow, hx⟩ := processRows_error_shape _ _ _ _ _ _ he
    obtain ⟨s, hs, q, hq, hna, hcell, hp⟩ := extractPairs_error_shape _ _ _ _ hx
    exact ⟨s, hs, row, hrow, q, hq, hna, hcell, hp⟩

/-- Witness for C7 on `tblBad`, whose percentage cell holds "absent". -/
theorem nonnumeric_abort_run_level_witness :
    fmtDup.format = "paired" ∧
    process_data_and_create_charts tblBad fmtDup =
      .error (.valueError "could not convert string to float: absent") ∧
    ((∃ e, process_data_and_create_charts tblBad fmtDup = .error e) ↔
      (∃ row ∈ tblBad.rows, ∃ q ∈ fmtDup.subject_percentage_pairs,
        (getCell tblBad.cols row q.1).notna = true ∧
        (getCell tblBad.cols row q.2.1).notna = true ∧
        ∃ e0, (getCell tblBad.cols row q.2.1).pyFloat = .error e0)) ∧
    (∀ e, process_data_and_create_charts tblBad fmtDup = .error e →
      ∃ s, e = .valueError ("could not convert string to float: " ++ s) ∧
        ∃ row ∈ tblBad.rows, ∃ q ∈ fmtDup.subject_percentage_pairs,
          (getCell tblBad.cols row q.1).notna = true ∧
          getCell tblBad.cols row q.2.1 = Cell.txt s ∧ pyParseFloat s = none) :=
  ⟨rfl, by with_unfolding_all rfl,
   (nonnumeric_abort_run_level tblBad fmtDup rfl).1,
   (nonnumeric_abort_run_level tblBad fmtDup rfl).2⟩

/-- Counterexample for C7 as stated: two tables whose only non-coercible
cells sit at different positions (column "P1" of `tblBad1`, column "P2" of
`tblBad2`) abort with the identical diagnostic, so the diagnostic does not
name the offending cell. -/
theorem nonnumeric_diagnostic_not_cell_specific :
    tblBad1 ≠ tblBad2 ∧
    process_data_and_create_charts tblBad1 fmtTwo =
      .error (.valueError "could not convert string to float: oops") ∧
    process_data_and_create_charts tblBad2 fmtTwo =
      .error (.valueError "could not convert string to float: oops") :=
  ⟨by decide, by with_unfolding_all rfl, by with_unfolding_all rfl⟩

set_option maxRecDepth 100000 in
/-- Counterexample for C10 as stated: in the program's binary64 arithmetic
(`app.py:118-121`) the coincidence fails.  For the single score `29.0`
(subjects `["Math"]`, as in a one-pair row), `average` is exactly `29` but
`total_percentage = (29.0/100)*100` rounds to
`8162774324609023 / 2^48 = 28.999999999999996…`, so the two statistics
differ. -/
theorem total_percentage_float_rounding_counterexample :
    (summaryFloat ["Math"] [29]).average = 29 ∧
    (summaryFloat ["Math"] [29]).total_percentage = 8162774324609023 / 2 ^ 48 ∧
    (summaryFloat ["Math"] [29]).total_percentage ≠ (summaryFloat ["Math"] [29]).average := by
  have h1 : (summaryFloat ["Math"] [29]).average = 29 := by with_unfolding_all rfl
  have h2 : (summaryFloat ["Math"] [29]).total_percentage = 8162774324609023 / 2 ^ 48 := by
    with_unfolding_all rfl
  refine ⟨h1, h2, ?_⟩
  rw [h1, h2]
  norm_num
